import Mathlib

/-
Verification development for the namesilo libdns provider (provider.go).
The Go source is shallowly embedded: records are structures over String and
Int, the registrar is an oracle giving the outcome of each HTTP call in the
order the calls are issued, and every operation returns its result together
with the list of request URLs it actually issued.
-/

namespace Namesilo

/-- Record mirrors libdns.Record. The Go field Type is spelled Ty because
Type is a reserved word in Lean; TTL is in nanoseconds (Go time.Duration). -/
structure Record where
  ID : String
  Ty : String
  Name : String
  Value : String
  TTL : Int
  Priority : Int
deriving DecidableEq, Repr

/-- Provider mirrors the Go Provider struct. -/
structure Provider where
  APIToken : String
deriving DecidableEq, Repr

/-- Reply mirrors the anonymous reply struct decoded from acknowledgement
bodies: fields code and detail. -/
structure Reply where
  Code : Int
  Detail : String
deriving DecidableEq, Repr

/-- ParsedRecord mirrors the anonymous struct decoded from a dnsListRecords
body; TTL here is the integer number of seconds from the XML. -/
structure ParsedRecord where
  ID : String
  Ty : String
  Name : String
  Value : String
  TTL : Int
  Priority : Int
deriving DecidableEq, Repr

/-- Error kinds: each constructor corresponds to one family of return-error
sites in the Go source (transport failure from client.Do, body read failure
from ioutil.ReadAll, non-200 HTTP status, xml.Unmarshal failure, and a
decoded reply whose code is not 300). -/
inductive Err where
  | transport
  | readFail
  | httpStatus (status : Nat)
  | decode
  | registrar (code : Int) (detail : String)
deriving DecidableEq, Repr

/-- Outcome of an operation: ok, a returned error, or a process abort
(log.Fatalf in the Go source terminates the process; no value is returned). -/
inductive Outcome (α : Type) where
  | ok (val : α)
  | err (e : Err)
  | fatal
deriving DecidableEq, Repr

/-- Body of an acknowledgement-style HTTP response, as the Go code sees it:
reading the body may fail, decoding it may fail, or it decodes to a Reply. -/
inductive AckBody where
  | readError
  | decodeError
  | reply (rep : Reply)
deriving DecidableEq, Repr

/-- Result of one acknowledgement-style HTTP call: the transport may fail
(client.Do error), or a response with an HTTP status and a body arrives. -/
inductive CallResult where
  | transportError
  | response (status : Nat) (body : AckBody)
deriving DecidableEq, Repr

/-- Body of a dnsListRecords response. -/
inductive ListBody where
  | readError
  | decodeError
  | records (parsed : List ParsedRecord)
deriving DecidableEq, Repr

/-- Result of the dnsListRecords HTTP call. -/
inductive ListCall where
  | transportError
  | response (status : Nat) (body : ListBody)
deriving DecidableEq, Repr

/-- strEndsWith models Go strings.HasSuffix at the character level. -/
def strEndsWith (s t : String) : Bool :=
  t.data.isSuffixOf s.data

/-- trimSuffix models Go strings.TrimSuffix: drop the suffix when present,
otherwise return the string unchanged. -/
def trimSuffix (s t : String) : String :=
  if strEndsWith s t then ⟨s.data.take (s.data.length - t.data.length)⟩ else s

/-- getDomain mirrors the Go function of the same name. -/
def getDomain (zone : String) : String :=
  trimSuffix zone "."

/-- getHostname mirrors the Go function of the same name: strip the zone
suffix, then strip the trailing dot. -/
def getHostname (zone name : String) : String :=
  trimSuffix (trimSuffix name zone) "."

/-- getApiHost mirrors the Go method of the same name. -/
def getApiHost (_p : Provider) : String :=
  "https://www.namesilo.com/api"

/-- rrttlParam mirrors the rrttl fragment: empty when TTL is zero, otherwise
the TTL divided by time.Second (Go division on int64 truncates toward zero,
as Int.div does). -/
def rrttlParam (r : Record) : String :=
  if r.TTL ≠ 0 then "&rrttl=" ++ toString (Int.tdiv r.TTL 1000000000) else ""

/-- rrdistanceParam mirrors the rrdistance fragment: empty when Priority is
zero. -/
def rrdistanceParam (r : Record) : String :=
  if r.Priority ≠ 0 then "&rrdistance=" ++ toString r.Priority else ""

/-- addRecordURL mirrors the req_url built in AppendRecords (string
concatenation, rrttl before rrdistance). -/
def addRecordURL (p : Provider) (zone : String) (r : Record) : String :=
  getApiHost p ++ "/dnsAddRecord?version=1&type=xml&key=" ++ p.APIToken ++
    "&domain=" ++ getDomain zone ++ "&rrtype=" ++ r.Ty ++ "&rrhost=" ++
    getHostname zone r.Name ++ "&rrvalue=" ++ r.Value ++ rrttlParam r ++
    rrdistanceParam r

/-- updateRecordURL mirrors the req_url built in the update phase of
SetRecords (rrdistance before rrttl, unlike addRecordURL). -/
def updateRecordURL (p : Provider) (zone : String) (r : Record) : String :=
  getApiHost p ++ "/dnsUpdateRecord?version=1&type=xml&key=" ++ p.APIToken ++
    "&domain=" ++ getDomain zone ++ "&rrid=" ++ r.ID ++ "&rrhost=" ++
    getHostname zone r.Name ++ "&rrvalue=" ++ r.Value ++ rrdistanceParam r ++
    rrttlParam r

/-- deleteRecordURL mirrors the req_url built in DeleteRecords. -/
def deleteRecordURL (p : Provider) (zone : String) (r : Record) : String :=
  getApiHost p ++ "/dnsDeleteRecord?version=1&type=xml&key=" ++ p.APIToken ++
    "&domain=" ++ getDomain zone ++ "&rrid=" ++ r.ID

/-- recordOfParsed mirrors the loop in GetRecords that builds a
libdns.Record from a decoded resource_record: the Name is taken verbatim and
the TTL seconds become a duration in nanoseconds. -/
def recordOfParsed (pr : ParsedRecord) : Record :=
  ⟨pr.ID, pr.Ty, pr.Name, pr.Value, pr.TTL * 1000000000, pr.Priority⟩

/-- getRecords models GetRecords. The Go code checks the HTTP status first,
then reads the body (a read error is returned), then decodes it; on a decode
error it calls log.Fatalf, which aborts the process, modelled as fatal. -/
def getRecords (_p : Provider) (_zone : String) (lc : ListCall) :
    Outcome (List Record) :=
  match lc with
  | ListCall.transportError => Outcome.err Err.transport
  | ListCall.response status body =>
    if status ≠ 200 then Outcome.err (Err.httpStatus status)
    else
      match body with
      | ListBody.readError => Outcome.err Err.readFail
      | ListBody.decodeError => Outcome.fatal
      | ListBody.records parsed => Outcome.ok (parsed.map recordOfParsed)

/-- handleAck models the shared per-call handling in AppendRecords, the
update phase of SetRecords and the delete phase of DeleteRecords: transport
error, then body read error (the Go code reads the body before checking the
status), then the status check, then decode, then the reply-code check. -/
def handleAck : CallResult → Except Err Unit
  | CallResult.transportError => Except.error Err.transport
  | CallResult.response status body =>
    match body with
    | AckBody.readError => Except.error Err.readFail
    | AckBody.decodeError =>
      if status ≠ 200 then Except.error (Err.httpStatus status)
      else Except.error Err.decode
    | AckBody.reply rep =>
      if status ≠ 200 then Except.error (Err.httpStatus status)
      else if rep.Code ≠ 300 then
        Except.error (Err.registrar rep.Code rep.Detail)
      else Except.ok ()

/-- opLoop models the shared loop shape of AppendRecords, the update phase
of SetRecords and the delete phase of DeleteRecords: one HTTP call per
record in order, abort on the first failing call, and on per-record success
append that record to the result. The second component is the list of
request URLs actually issued (the failing call included). The oracle gives
the outcome of the call with a given sequence number. -/
def opLoop (urlOf : Record → String) (oracle : Nat → CallResult) :
    List Record → Nat → Except Err (List Record) × List String
  | [], _ => (Except.ok [], [])
  | r :: rs, i =>
    match handleAck (oracle i) with
    | Except.error e => (Except.error e, [urlOf r])
    | Except.ok _ =>
      let s := opLoop urlOf oracle rs (i + 1)
      match s.1 with
      | Except.ok l => (Except.ok (r :: l), urlOf r :: s.2)
      | Except.error e => (Except.error e, urlOf r :: s.2)

/-- appendRecords models AppendRecords. Request-construction errors from
http.NewRequest are not modelled: for these GET URLs construction is
deterministic and the branch is unreachable in the claims considered. -/
def appendRecords (p : Provider) (zone : String) (records : List Record)
    (oracle : Nat → CallResult) : Except Err (List Record) × List String :=
  opLoop (addRecordURL p zone) oracle records 0

/-- SetClass is the classification of one desired record by the inner
matching loop of SetRecords: a current record was found (and removed), or
the record was classified as a create, or the loop body never ran because
the pool was empty and the record was dropped. -/
inductive SetClass where
  | found (m : Record)
  | create
  | dropped
deriving DecidableEq, Repr

/-- setMatchLoop models the inner loop of SetRecords over currentRecords:
scan the pool in order; on the first current record with equal Type and
equal zone-normalized Name, remove it and report it found; the Go loop
appends the record to appendRecords only when the check i == len-1 is
reached without a match, so a create is reported only from the last
iteration of a non-empty pool; an empty pool runs no iteration at all and
the record is dropped. -/
def setMatchLoop (zone : String) (r : Record) :
    List Record → SetClass × List Record
  | [] => (SetClass.dropped, [])
  | c :: rest =>
    if c.Ty = r.Ty ∧ getHostname zone c.Name = getHostname zone r.Name then
      (SetClass.found c, rest)
    else
      match rest with
      | [] => (SetClass.create, [c])
      | c2 :: rest2 =>
        let s := setMatchLoop zone r (c2 :: rest2)
        (s.1, c :: s.2)

/-- SetPartition is the result of the partition phase of SetRecords; the
consumed field is the list of current records removed from the pool, in
match order (ghost instrumentation: the Go code drops them). -/
structure SetPartition where
  updateRecords : List Record
  appendRecords : List Record
  consumed : List Record
  pool : List Record
deriving DecidableEq, Repr

/-- classifyAll models the partition loop of SetRecords: a desired record
with empty ID is matched against the remaining pool by setMatchLoop (on a
match the current record ID is copied onto it and it becomes an update; on
create it is queued for AppendRecords; on dropped nothing happens); a
desired record with a non-empty ID is an update as is. -/
def classifyAll (zone : String) :
    List Record → List Record → SetPartition
  | [], pool => ⟨[], [], [], pool⟩
  | r :: rs, pool =>
    if r.ID = "" then
      match setMatchLoop zone r pool with
      | (SetClass.found m, pool2) =>
        let s := classifyAll zone rs pool2
        ⟨{ r with ID := m.ID } :: s.updateRecords, s.appendRecords,
          m :: s.consumed, s.pool⟩
      | (SetClass.create, _) =>
        let s := classifyAll zone rs pool
        ⟨s.updateRecords, r :: s.appendRecords, s.consumed, s.pool⟩
      | (SetClass.dropped, _) =>
        classifyAll zone rs pool
    else
      let s := classifyAll zone rs pool
      ⟨r :: s.updateRecords, s.appendRecords, s.consumed, s.pool⟩

/-- setRecords models SetRecords: fetch current records, partition the
desired records, create via the AppendRecords loop, then update. The Go
line copy(updatedRecords[:], appendedRecords[:]) copies into a nil slice
and therefore copies zero elements, so the successfully appended records do
not reach the returned list; the model accordingly ignores them. The call
oracle is shared: create calls are numbered first, update calls after. -/
def setRecords (p : Provider) (zone : String) (records : List Record)
    (lc : ListCall) (oracle : Nat → CallResult) :
    Outcome (List Record) × List String :=
  match getRecords p zone lc with
  | Outcome.err e => (Outcome.err e, [])
  | Outcome.fatal => (Outcome.fatal, [])
  | Outcome.ok cur =>
    let s := classifyAll zone records cur
    match opLoop (addRecordURL p zone) oracle s.appendRecords 0 with
    | (Except.error e, urls) => (Outcome.err e, urls)
    | (Except.ok _, urlsA) =>
      match opLoop (updateRecordURL p zone) oracle s.updateRecords
          s.appendRecords.length with
      | (Except.error e, urlsU) => (Outcome.err e, urlsA ++ urlsU)
      | (Except.ok updated, urlsU) => (Outcome.ok updated, urlsA ++ urlsU)

/-- removeFirstMatch models the inner loop of DeleteRecords: find the first
current record with equal Type and equal zone-normalized Name, remove it
from the pool and return it; none when no remaining current record
matches. -/
def removeFirstMatch (zone : String) (r : Record) :
    List Record → Option (Record × List Record)
  | [] => none
  | c :: rest =>
    if c.Ty = r.Ty ∧ getHostname zone c.Name = getHostname zone r.Name then
      some (c, rest)
    else
      match removeFirstMatch zone r rest with
      | some (m, rest2) => some (m, c :: rest2)
      | none => none

/-- deleteMatchAll models the matching phase of DeleteRecords: for each
requested record in order, consume the first matching current record and
queue it (the current record, with its registrar ID); requested records
with no match are skipped. Returns the queue and the remaining pool. -/
def deleteMatchAll (zone : String) :
    List Record → List Record → List Record × List Record
  | [], pool => ([], pool)
  | r :: rs, pool =>
    match removeFirstMatch zone r pool with
    | some (m, pool2) =>
      let s := deleteMatchAll zone rs pool2
      (m :: s.1, s.2)
    | none => deleteMatchAll zone rs pool

/-- deleteRecords models DeleteRecords: fetch current records, match the
requested records against them, then issue one delete call per queued
current record, in match order, aborting on the first failure. -/
def deleteRecords (p : Provider) (zone : String) (records : List Record)
    (lc : ListCall) (oracle : Nat → CallResult) :
    Outcome (List Record) × List String :=
  match getRecords p zone lc with
  | Outcome.err e => (Outcome.err e, [])
  | Outcome.fatal => (Outcome.fatal, [])
  | Outcome.ok cur =>
    let q := (deleteMatchAll zone records cur).1
    match opLoop (deleteRecordURL p zone) oracle q 0 with
    | (Except.ok deleted, urls) => (Outcome.ok deleted, urls)
    | (Except.error e, urls) => (Outcome.err e, urls)

/-- opLoop on an all-successful oracle returns the processed records
unchanged and issues exactly one call per record, in order. -/
theorem opLoop_ok (urlOf : Record → String) (oracle : Nat → CallResult) :
    ∀ (l : List Record) (i : Nat),
    (∀ k, k < l.length → handleAck (oracle (i + k)) = Except.ok ()) →
    opLoop urlOf oracle l i = (Except.ok l, l.map urlOf) := by
  intro l
  induction l with
  | nil => intro i _; rfl
  | cons r rs ih =>
    intro i h
    have h0 : handleAck (oracle i) = Except.ok () := by
      have := h 0 (by simp)
      simpa using this
    have hrest : opLoop urlOf oracle rs (i + 1)
        = (Except.ok rs, rs.map urlOf) := by
      refine ih (i + 1) (fun k hk => ?_)
      have he : i + 1 + k = i + (k + 1) := by omega
      rw [he]
      exact h (k + 1) (by simp; omega)
    simp [opLoop, h0, hrest]

/-- opLoop aborts on the first failing call: when calls before position j
succeed and call j fails, the result is that error and the issued URLs are
exactly those of the first j plus one records. -/
theorem opLoop_err (urlOf : Record → String) (oracle : Nat → CallResult) :
    ∀ (l : List Record) (i j : Nat) (e : Err), j < l.length →
    (∀ k, k < j → handleAck (oracle (i + k)) = Except.ok ()) →
    handleAck (oracle (i + j)) = Except.error e →
    opLoop urlOf oracle l i = (Except.error e, (l.take (j + 1)).map urlOf) := by
  intro l
  induction l with
  | nil => intro i j e hj _ _; simp at hj
  | cons r rs ih =>
    intro i j e hj hok herr
    cases j with
    | zero =>
      rw [Nat.add_zero] at herr
      simp [opLoop, herr]
    | succ j2 =>
      have h0 : handleAck (oracle i) = Except.ok () := by
        have := hok 0 (by omega)
        simpa using this
      have herr2 : handleAck (oracle (i + 1 + j2)) = Except.error e := by
        have he : i + 1 + j2 = i + (j2 + 1) := by omega
        rw [he]; exact herr
      have hrest := ih (i + 1) j2 e (by simp at hj; omega)
        (fun k hk => by
          have he : i + 1 + k = i + (k + 1) := by omega
          rw [he]; exact hok (k + 1) (by omega))
        herr2
      simp [opLoop, h0, hrest]

/-- removeFirstMatch removes exactly one occurrence: the matched record
together with the remaining pool is a permutation of the original pool. -/
theorem removeFirstMatch_perm (zone : String) (r : Record) :
    ∀ (pool pool2 : List Record) (m : Record),
    removeFirstMatch zone r pool = some (m, pool2) →
    (m :: pool2).Perm pool := by
  intro pool
  induction pool with
  | nil => intro pool2 m h; simp [removeFirstMatch] at h
  | cons c rest ih =>
    intro pool2 m h
    by_cases hc : c.Ty = r.Ty ∧ getHostname zone c.Name = getHostname zone r.Name
    · simp [removeFirstMatch, hc] at h
      obtain ⟨h1, h2⟩ := h
      subst h1
      subst h2
      exact List.Perm.refl _
    · simp only [removeFirstMatch, if_neg hc] at h
      cases hrec : removeFirstMatch zone r rest with
      | none => rw [hrec] at h; simp at h
      | some pr =>
        obtain ⟨m2, rest2⟩ := pr
        rw [hrec] at h
        simp at h
        obtain ⟨h1, h2⟩ := h
        subst h1
        subst h2
        have hperm := ih rest2 m2 hrec
        exact (List.Perm.swap c m2 rest2).trans (hperm.cons c)

/-- setMatchLoop in the found case removes exactly one occurrence: the
matched record together with the remaining pool is a permutation of the
original pool. -/
theorem setMatchLoop_found_perm (zone : String) (r : Record) :
    ∀ (pool pool2 : List Record) (m : Record),
    setMatchLoop zone r pool = (SetClass.found m, pool2) →
    (m :: pool2).Perm pool := by
  intro pool
  induction pool with
  | nil =>
    intro pool2 m h
    rw [setMatchLoop.eq_def] at h
    simp at h
  | cons c rest ih =>
    intro pool2 m h
    rw [setMatchLoop.eq_def] at h
    by_cases hc : c.Ty = r.Ty ∧ getHostname zone c.Name = getHostname zone r.Name
    · simp only [if_pos hc] at h
      simp at h
      obtain ⟨h1, h2⟩ := h
      subst h1
      subst h2
      exact List.Perm.refl _
    · simp only [if_neg hc] at h
      cases rest with
      | nil => simp at h
      | cons c2 rest2 =>
        simp only at h
        have h1 : (setMatchLoop zone r (c2 :: rest2)).1 = SetClass.found m := by
          have := congrArg Prod.fst h
          simpa using this
        have h2 : pool2 = c :: (setMatchLoop zone r (c2 :: rest2)).2 := by
          have := congrArg Prod.snd h
          simpa using this.symm
        have hfull : setMatchLoop zone r (c2 :: rest2)
            = (SetClass.found m, (setMatchLoop zone r (c2 :: rest2)).2) := by
          rw [← h1]
        have hperm := ih (setMatchLoop zone r (c2 :: rest2)).2 m hfull
        rw [h2]
        exact (List.Perm.swap c m _).trans (hperm.cons c)

/-- classifyAll consumes each current record at most once: the consumed
records together with the remaining pool are a permutation of the original
pool. -/
theorem classifyAll_perm (zone : String) :
    ∀ (desired pool : List Record),
    ((classifyAll zone desired pool).consumed
        ++ (classifyAll zone desired pool).pool).Perm pool := by
  intro desired
  induction desired with
  | nil => intro pool; simp [classifyAll]
  | cons r rs ih =>
    intro pool
    by_cases hid : r.ID = ""
    · cases hm : setMatchLoop zone r pool with
      | mk cls pool2 =>
        cases cls with
        | found m =>
          simp only [classifyAll, if_pos hid, hm]
          simp only [List.cons_append]
          exact ((ih pool2).cons m).trans
            (setMatchLoop_found_perm zone r pool pool2 m hm)
        | create =>
          simp only [classifyAll, if_pos hid, hm]
          exact ih pool
        | dropped =>
          simp only [classifyAll, if_pos hid, hm]
          exact ih pool
    · simp only [classifyAll, if_neg hid]
      exact ih pool

/-- deleteMatchAll consumes each current record at most once: the queued
records together with the remaining pool are a permutation of the original
pool. -/
theorem deleteMatchAll_perm (zone : String) :
    ∀ (requested pool : List Record),
    ((deleteMatchAll zone requested pool).1
        ++ (deleteMatchAll zone requested pool).2).Perm pool := by
  intro requested
  induction requested with
  | nil => intro pool; simp [deleteMatchAll]
  | cons r rs ih =>
    intro pool
    cases hm : removeFirstMatch zone r pool with
    | none => simp only [deleteMatchAll, hm]; exact ih pool
    | some pr =>
      obtain ⟨m, pool2⟩ := pr
      simp only [deleteMatchAll, hm]
      simp only [List.cons_append]
      exact ((ih pool2).cons m).trans
        (removeFirstMatch_perm zone r pool pool2 m hm)

/-- C1: the claim says that when all registrar calls succeed, SetRecords
returns the concatenation of the created and the updated records, so every
successfully created record appears in the returned sequence. Evaluating
the code at a failing input: one desired record is classified as a create
(the pool holds one record of a different type), the create call is issued
and succeeds (the issued URL list holds exactly the dnsAddRecord URL and
the oracle acknowledges with code 300), yet the returned sequence is empty:
the copy into a nil slice drops the created records. -/
theorem C1_set_drops_created_records :
    setRecords ⟨"k"⟩ "zone.com"
      [⟨"", "TXT", "_test.zone.com", "v", 0, 0⟩]
      (ListCall.response 200
        (ListBody.records [⟨"1", "A", "www.zone.com", "1.2.3.4", 3600, 0⟩]))
      (fun _ => CallResult.response 200 (AckBody.reply ⟨300, "success"⟩))
    = (Outcome.ok [],
       [addRecordURL ⟨"k"⟩ "zone.com" ⟨"", "TXT", "_test.zone.com", "v", 0, 0⟩]) := by
  decide

/-- C2: the claim says a desired record without ID and with no match among
the remaining current records is classified as a create, including when the
remaining pool is empty. Evaluating the code at failing inputs: with an
empty pool the inner loop body never runs, so the record is neither an
update nor a create and no call is issued (first and third conjuncts); and
when two desired records share type and name while only one current record
exists, the first consumes it and the second is dropped instead of becoming
a create (second conjunct: appendRecords stays empty). -/
theorem C2_empty_pool_drops_creates :
    classifyAll "zone.com" [⟨"", "TXT", "_test.zone.com", "v", 0, 0⟩] []
      = ⟨[], [], [], []⟩
    ∧ classifyAll "zone.com"
        [⟨"", "TXT", "_test.zone.com", "v", 0, 0⟩,
         ⟨"", "TXT", "_test.zone.com", "w", 0, 0⟩]
        [⟨"1", "TXT", "_test.zone.com", "old", 0, 0⟩]
      = ⟨[⟨"1", "TXT", "_test.zone.com", "v", 0, 0⟩], [],
         [⟨"1", "TXT", "_test.zone.com", "old", 0, 0⟩], []⟩
    ∧ setRecords ⟨"k"⟩ "zone.com" [⟨"", "TXT", "_test.zone.com", "v", 0, 0⟩]
        (ListCall.response 200 (ListBody.records []))
        (fun _ => CallResult.response 200 (AckBody.reply ⟨300, "success"⟩))
      = (Outcome.ok [], []) := by
  decide

/-- C3: the claim says a list response whose body cannot be decoded makes
GetRecords return a recoverable DecodeError, never abort the process.
Evaluating the code at the failing input: the Go source calls log.Fatalf on
an xml.Unmarshal error, which terminates the process, modelled as the fatal
outcome rather than an error return. -/
theorem C3_list_decode_error_is_fatal (p : Provider) (zone : String) :
    getRecords p zone (ListCall.response 200 ListBody.decodeError)
      = Outcome.fatal := by
  rfl

/-- C9 counterexample: the claim says every record returned by a successful
list has a zone-normalized Name. At this concrete input the registrar body
carries the host _test.matjes.life under zone matjes.life; GetRecords
returns it verbatim, with the zone suffix still present, and it differs
from its zone-normalized hostname. -/
theorem C9_counterexample_name_not_normalized :
    getRecords ⟨"k"⟩ "matjes.life"
      (ListCall.response 200
        (ListBody.records [⟨"1", "TXT", "_test.matjes.life", "text", 3600, 0⟩]))
      = Outcome.ok [⟨"1", "TXT", "_test.matjes.life", "text", 3600000000000, 0⟩]
    ∧ "_test.matjes.life" ≠ getHostname "matjes.life" "_test.matjes.life"
    ∧ strEndsWith "_test.matjes.life" "matjes.life" = true := by
  decide

/-- C9 amended: a successful GetRecords returns one record per decoded
resource record, and each Name is the raw host value exactly as the
registrar supplied it, with no normalization applied. -/
theorem C9_amended_list_returns_raw_names (p : Provider) (zone : String)
    (parsed : List ParsedRecord) :
    getRecords p zone (ListCall.response 200 (ListBody.records parsed))
      = Outcome.ok (parsed.map recordOfParsed)
    ∧ ∀ pr : ParsedRecord, (recordOfParsed pr).Name = pr.Name := by
  exact ⟨rfl, fun _ => rfl⟩

/-- C4: the claim says that for create, update and delete calls alike, an
acknowledgement that decodes to a reply whose code is not 300 makes the
enclosing operation fail with a registrar error, even though the HTTP
status of the response is 200. The oracle here answers every call with
HTTP status 200 and a decoded reply carrying an arbitrary non-300 code:
AppendRecords fails on its first create call for any input records, and
SetRecords and DeleteRecords fail on their first update and delete call at
inputs that produce one such call. -/
theorem C4_non_success_reply_code_fails (p : Provider) (zone : String)
    (c : Int) (d : String) (r : Record) (rs : List Record) (hc : c ≠ 300) :
    appendRecords p zone (r :: rs)
        (fun _ => CallResult.response 200 (AckBody.reply ⟨c, d⟩))
      = (Except.error (Err.registrar c d), [addRecordURL p zone r])
    ∧ setRecords p zone [⟨"7", "TXT", "x.zone.com", "v", 0, 0⟩]
        (ListCall.response 200 (ListBody.records []))
        (fun _ => CallResult.response 200 (AckBody.reply ⟨c, d⟩))
      = (Outcome.err (Err.registrar c d),
         [updateRecordURL p zone ⟨"7", "TXT", "x.zone.com", "v", 0, 0⟩])
    ∧ deleteRecords p zone [⟨"", "A", "www.zone.com", "", 0, 0⟩]
        (ListCall.response 200
          (ListBody.records [⟨"5", "A", "www.zone.com", "ip", 0, 0⟩]))
        (fun _ => CallResult.response 200 (AckBody.reply ⟨c, d⟩))
      = (Outcome.err (Err.registrar c d),
         [deleteRecordURL p zone ⟨"5", "A", "www.zone.com", "ip", 0, 0⟩]) := by
  have hbad : handleAck (CallResult.response 200 (AckBody.reply ⟨c, d⟩))
      = Except.error (Err.registrar c d) := by
    simp [handleAck, hc]
  have hid : ("7" : String) ≠ "" := by decide
  refine ⟨?_, ?_, ?_⟩
  · simp [appendRecords, opLoop, hbad]
  · simp [setRecords, getRecords, classifyAll, opLoop, hbad, hid]
  · simp [deleteRecords, getRecords, recordOfParsed, deleteMatchAll,
      removeFirstMatch, opLoop, hbad]

/-- C4 witness: the theorem applied at a concrete provider, zone and reply
code 280, discharging the non-300 hypothesis. -/
theorem C4_witness :
    appendRecords ⟨"k"⟩ "zone.com" [⟨"", "TXT", "_t.zone.com", "v", 0, 0⟩]
        (fun _ => CallResult.response 200 (AckBody.reply ⟨280, "fail"⟩))
      = (Except.error (Err.registrar 280 "fail"),
         [addRecordURL ⟨"k"⟩ "zone.com" ⟨"", "TXT", "_t.zone.com", "v", 0, 0⟩]) :=
  (C4_non_success_reply_code_fails ⟨"k"⟩ "zone.com" 280 "fail"
    ⟨"", "TXT", "_t.zone.com", "v", 0, 0⟩ [] (by decide)).1

/-- C5: the claim says AppendRecords issues exactly one create call per
record, in input order; when every call succeeds it returns the input list
unchanged, having issued exactly the per-record dnsAddRecord URLs in order;
and on the first failing call it aborts with that error, the calls already
issued being exactly those for the records up to and including the failing
one, with no further call (so no rollback of the records already
created). -/
theorem C5_append_in_order_abort_no_rollback (p : Provider) (zone : String)
    (records : List Record) (oracle : Nat → CallResult) :
    ((∀ k, k < records.length → handleAck (oracle k) = Except.ok ()) →
      appendRecords p zone records oracle
        = (Except.ok records, records.map (addRecordURL p zone)))
    ∧ (∀ j e, j < records.length →
        (∀ k, k < j → handleAck (oracle k) = Except.ok ()) →
        handleAck (oracle j) = Except.error e →
        appendRecords p zone records oracle
          = (Except.error e,
             (records.take (j + 1)).map (addRecordURL p zone))) := by
  constructor
  · intro h
    exact opLoop_ok (addRecordURL p zone) oracle records 0
      (fun k hk => by simpa using h k hk)
  · intro j e hj hok herr
    exact opLoop_err (addRecordURL p zone) oracle records 0 j e hj
      (fun k hk => by simpa using hok k hk) (by simpa using herr)

/-- C5 witness: the theorem applied at a two-record input whose oracle
acknowledges every call with code 300, discharging the all-success
hypothesis; the result is the input list unchanged, with one create URL per
record in input order. -/
theorem C5_witness :
    appendRecords ⟨"k"⟩ "zone.com"
      [⟨"", "TXT", "_t.zone.com", "v", 0, 0⟩,
       ⟨"", "A", "www.zone.com", "1.2.3.4", 0, 0⟩]
      (fun _ => CallResult.response 200 (AckBody.reply ⟨300, "success"⟩))
    = (Except.ok
        [⟨"", "TXT", "_t.zone.com", "v", 0, 0⟩,
         ⟨"", "A", "www.zone.com", "1.2.3.4", 0, 0⟩],
       [addRecordURL ⟨"k"⟩ "zone.com" ⟨"", "TXT", "_t.zone.com", "v", 0, 0⟩,
        addRecordURL ⟨"k"⟩ "zone.com" ⟨"", "A", "www.zone.com", "1.2.3.4", 0, 0⟩]) :=
  (C5_append_in_order_abort_no_rollback ⟨"k"⟩ "zone.com"
    [⟨"", "TXT", "_t.zone.com", "v", 0, 0⟩,
     ⟨"", "A", "www.zone.com", "1.2.3.4", 0, 0⟩]
    (fun _ => CallResult.response 200 (AckBody.reply ⟨300, "success"⟩))).1
    (fun _ _ => rfl)

/-- C6: the claim says DeleteRecords silently skips requested records that
match no remaining current record, issues one delete call per matched
current record in match order, and returns the matched current records
(registrar-sourced values), not the caller input values. With the current
records fetched successfully and every delete call acknowledged, the result
is exactly the queue computed by the matching phase, one dnsDeleteRecord
URL is issued per queued record in order, and every returned record is one
of the fetched current records. -/
theorem C6_delete_skips_unmatched_returns_current (p : Provider)
    (zone : String) (lc : ListCall) (cur requested : List Record)
    (oracle : Nat → CallResult)
    (hget : getRecords p zone lc = Outcome.ok cur)
    (hok : ∀ k, k < ((deleteMatchAll zone requested cur).1).length →
      handleAck (oracle k) = Except.ok ()) :
    deleteRecords p zone requested lc oracle
      = (Outcome.ok (deleteMatchAll zone requested cur).1,
         ((deleteMatchAll zone requested cur).1).map (deleteRecordURL p zone))
    ∧ ∀ r, r ∈ (deleteMatchAll zone requested cur).1 → r ∈ cur := by
  constructor
  · have hloop := opLoop_ok (deleteRecordURL p zone) oracle
      (deleteMatchAll zone requested cur).1 0
      (fun k hk => by simpa using hok k hk)
    simp [deleteRecords, hget, hloop]
  · intro r hr
    exact (deleteMatchAll_perm zone requested cur).mem_iff.mp
      (List.mem_append_left _ hr)

/-- C6 witness: the theorem applied at the end-to-end scenario of the spec:
one current A record www.zone.com with ID 5, a request for www.zone.com and
for the unmatched missing.zone.com; both hypotheses are discharged
concretely, and the conclusion instance shows exactly one delete call and a
returned sequence of length one carrying the registrar ID 5. -/
theorem C6_witness :
    deleteRecords ⟨"k"⟩ "zone.com"
      [⟨"", "A", "www.zone.com", "", 0, 0⟩,
       ⟨"", "A", "missing.zone.com", "", 0, 0⟩]
      (ListCall.response 200
        (ListBody.records [⟨"5", "A", "www.zone.com", "1.2.3.4", 0, 0⟩]))
      (fun _ => CallResult.response 200 (AckBody.reply ⟨300, "success"⟩))
    = (Outcome.ok [⟨"5", "A", "www.zone.com", "1.2.3.4", 0, 0⟩],
       [deleteRecordURL ⟨"k"⟩ "zone.com" ⟨"5", "A", "www.zone.com", "1.2.3.4", 0, 0⟩]) :=
  (C6_delete_skips_unmatched_returns_current ⟨"k"⟩ "zone.com"
    (ListCall.response 200
      (ListBody.records [⟨"5", "A", "www.zone.com", "1.2.3.4", 0, 0⟩]))
    [⟨"5", "A", "www.zone.com", "1.2.3.4", 0, 0⟩]
    [⟨"", "A", "www.zone.com", "", 0, 0⟩,
     ⟨"", "A", "missing.zone.com", "", 0, 0⟩]
    (fun _ => CallResult.response 200 (AckBody.reply ⟨300, "success"⟩))
    (by decide) (fun _ _ => rfl)).1

/-- setMatchLoop depends on the desired record only through its type and
its zone-normalized name: replacing the name by any name with the same
normalized hostname leaves the whole scan result unchanged. -/
theorem setMatchLoop_name_congr (zone n : String) (r : Record)
    (h : getHostname zone r.Name = getHostname zone n) :
    ∀ pool, setMatchLoop zone { r with Name := n } pool
      = setMatchLoop zone r pool := by
  intro pool
  induction pool with
  | nil => rfl
  | cons c rest ih =>
    have hcond : (c.Ty = ({ r with Name := n } : Record).Ty ∧
        getHostname zone c.Name
          = getHostname zone ({ r with Name := n } : Record).Name)
        ↔ (c.Ty = r.Ty ∧
            getHostname zone c.Name = getHostname zone r.Name) := by
      simp [← h]
    cases rest with
    | nil =>
      by_cases hm : c.Ty = r.Ty ∧
          getHostname zone c.Name = getHostname zone r.Name
      · simp only [setMatchLoop]
        rw [if_pos (hcond.mpr hm), if_pos hm]
      · simp only [setMatchLoop]
        rw [if_neg (fun hx => hm (hcond.mp hx)), if_neg hm]
    | cons c2 rest2 =>
      by_cases hm : c.Ty = r.Ty ∧
          getHostname zone c.Name = getHostname zone r.Name
      · simp only [setMatchLoop]
        rw [if_pos (hcond.mpr hm), if_pos hm]
      · simp only [setMatchLoop]
        rw [if_neg (fun hx => hm (hcond.mp hx)), if_neg hm, ih]

/-- removeFirstMatch depends on the requested record only through its type
and its zone-normalized name. -/
theorem removeFirstMatch_name_congr (zone n : String) (r : Record)
    (h : getHostname zone r.Name = getHostname zone n) :
    ∀ pool, removeFirstMatch zone { r with Name := n } pool
      = removeFirstMatch zone r pool := by
  intro pool
  induction pool with
  | nil => rfl
  | cons c rest ih =>
    have hcond : (c.Ty = ({ r with Name := n } : Record).Ty ∧
        getHostname zone c.Name
          = getHostname zone ({ r with Name := n } : Record).Name)
        ↔ (c.Ty = r.Ty ∧
            getHostname zone c.Name = getHostname zone r.Name) := by
      simp [← h]
    by_cases hm : c.Ty = r.Ty ∧ getHostname zone c.Name = getHostname zone r.Name
    · simp only [removeFirstMatch]
      rw [if_pos (hcond.mpr hm), if_pos hm]
    · simp only [removeFirstMatch]
      rw [if_neg (fun hx => hm (hcond.mp hx)), if_neg hm, ih]

/-- C7: the claim says that in the matching phases of Set and Delete each
current record is consumed at most once: the consumed records joined with
the remaining pool form a permutation of the original pool for both
classifyAll (Set) and deleteMatchAll (Delete), so no current record is
matched by two desired or requested records in one call; and concretely,
two duplicate desired records with the same type and name and no ID bind
to the two distinct current records with IDs 1 and 2. -/
theorem C7_current_records_consumed_at_most_once (zone : String)
    (desired requested pool : List Record) :
    ((classifyAll zone desired pool).consumed
        ++ (classifyAll zone desired pool).pool).Perm pool
    ∧ ((deleteMatchAll zone requested pool).1
        ++ (deleteMatchAll zone requested pool).2).Perm pool
    ∧ classifyAll "z"
        [⟨"", "TXT", "n.z", "v", 0, 0⟩, ⟨"", "TXT", "n.z", "v", 0, 0⟩]
        [⟨"1", "TXT", "n.z", "a", 0, 0⟩, ⟨"2", "TXT", "n.z", "b", 0, 0⟩]
      = ⟨[⟨"1", "TXT", "n.z", "v", 0, 0⟩, ⟨"2", "TXT", "n.z", "v", 0, 0⟩],
         [],
         [⟨"1", "TXT", "n.z", "a", 0, 0⟩, ⟨"2", "TXT", "n.z", "b", 0, 0⟩],
         []⟩ :=
  ⟨classifyAll_perm zone desired pool,
   deleteMatchAll_perm zone requested pool,
   by decide⟩

/-- C8: the claim says every matching comparison in Set and Delete compares
names after zone normalization, never as raw strings: replacing the name
of a desired or requested record by any name with the same zone-normalized
hostname leaves both matching scans unchanged on every pool; and under
zone matjes.life the names _test.matjes.life and _test normalize to the
same hostname _test. -/
theorem C8_matching_compares_normalized_names :
    (∀ (zone n : String) (r : Record) (pool : List Record),
      getHostname zone r.Name = getHostname zone n →
        setMatchLoop zone { r with Name := n } pool
            = setMatchLoop zone r pool
        ∧ removeFirstMatch zone { r with Name := n } pool
            = removeFirstMatch zone r pool)
    ∧ getHostname "matjes.life" "_test.matjes.life"
        = getHostname "matjes.life" "_test"
    ∧ getHostname "matjes.life" "_test.matjes.life" = "_test" :=
  ⟨fun zone n r pool h =>
    ⟨setMatchLoop_name_congr zone n r h pool,
     removeFirstMatch_name_congr zone n r h pool⟩,
   by decide, by decide⟩

/-- C8 witness: the theorem applied under zone matjes.life to a desired
record named _test.matjes.life and the equinormal name _test, over a pool
holding one TXT record, discharging the equal-normalized-hostname
hypothesis by evaluation. -/
theorem C8_witness :
    getHostname "matjes.life"
        (⟨"", "TXT", "_test.matjes.life", "v", 0, 0⟩ : Record).Name
      = getHostname "matjes.life" "_test"
    ∧ (setMatchLoop "matjes.life"
          { (⟨"", "TXT", "_test.matjes.life", "v", 0, 0⟩ : Record) with
              Name := "_test" }
          [⟨"9", "TXT", "_test.matjes.life", "old", 0, 0⟩]
        = setMatchLoop "matjes.life"
          ⟨"", "TXT", "_test.matjes.life", "v", 0, 0⟩
          [⟨"9", "TXT", "_test.matjes.life", "old", 0, 0⟩]
      ∧ removeFirstMatch "matjes.life"
          { (⟨"", "TXT", "_test.matjes.life", "v", 0, 0⟩ : Record) with
              Name := "_test" }
          [⟨"9", "TXT", "_test.matjes.life", "old", 0, 0⟩]
        = removeFirstMatch "matjes.life"
          ⟨"", "TXT", "_test.matjes.life", "v", 0, 0⟩
          [⟨"9", "TXT", "_test.matjes.life", "old", 0, 0⟩]) :=
  ⟨by decide,
   C8_matching_compares_normalized_names.1 "matjes.life" "_test"
     ⟨"", "TXT", "_test.matjes.life", "v", 0, 0⟩
     [⟨"9", "TXT", "_test.matjes.life", "old", 0, 0⟩]
     (by decide)⟩

/-- C10: the request URLs are built by raw concatenation of unescaped
fields, so the builders are not injective: a create request for a record
with Value v and TTL 7 seconds coincides with the create request for a
record whose Value is v&rrttl=7 and whose TTL is zero, and an update
request for a record with Value v and Priority 5 coincides with the update
request for a record whose Value is v&rrdistance=5 and whose Priority is
zero; the colliding records are distinct, so a Value can inject query
parameters of the issued request. -/
theorem C10_url_builders_not_injective :
    addRecordURL ⟨"k"⟩ "zone.com" ⟨"", "TXT", "_t.zone.com", "v", 7000000000, 0⟩
      = addRecordURL ⟨"k"⟩ "zone.com" ⟨"", "TXT", "_t.zone.com", "v&rrttl=7", 0, 0⟩
    ∧ (⟨"", "TXT", "_t.zone.com", "v", 7000000000, 0⟩ : Record)
      ≠ ⟨"", "TXT", "_t.zone.com", "v&rrttl=7", 0, 0⟩
    ∧ updateRecordURL ⟨"k"⟩ "zone.com" ⟨"9", "TXT", "_t.zone.com", "v", 0, 5⟩
      = updateRecordURL ⟨"k"⟩ "zone.com" ⟨"9", "TXT", "_t.zone.com", "v&rrdistance=5", 0, 0⟩
    ∧ (⟨"9", "TXT", "_t.zone.com", "v", 0, 5⟩ : Record)
      ≠ ⟨"9", "TXT", "_t.zone.com", "v&rrdistance=5", 0, 0⟩ := by
  decide

end Namesilo
